import Mathlib

/-!
Verification of the expense-management MCP server (`mcp_server/server.py`).

The server exposes eight tools over a SQLite database with two tables,
`categories` and `expenses`.  We embed the database as two Lean lists and
each tool as a pure function on that state:

* SQL `SELECT ... WHERE` clauses become `List.filter`;
* `ORDER BY key DESC` becomes a stable insertion sort `sortByLe` with the
  comparator `fun a b => key b ≤ key a` (SQLite fixes no tie order; any
  order consistent with the key is a faithful model);
* the `LEFT JOIN expenses e ON c.id = e.category_id AND e.status = 'paid'`
  grouped by `c.id` becomes, per category row, either the list of matching
  expenses or a single all-NULL row (`leftJoinPaid`), with the SQL
  aggregates `COALESCE(SUM(e.amount), 0)` and `COUNT(e.id)` modelled by
  `sqlSumAmount`/`sqlCountId` with SQL NULL-skipping semantics;
* SQLite `INTEGER PRIMARY KEY` assignment becomes `max existing id + 1`,
  and row timestamps are passed in as an explicit `now` parameter;
* numeric amounts (`REAL` in the schema) are modelled as exact integers
  `Int`; floating-point rounding is out of scope;
* each tool returns its result paired with the database state after the
  call, so that read-only behaviour and error paths are provable.

Strings returned by the tools are kept verbatim where they matter to the
specification (not-found messages, the no-op update message); JSON
pretty-printing of successful results is dropped in favour of the
structured values being serialized.
-/

namespace Spending

/-! ### A stable insertion sort standing in for SQL ORDER BY -/

/-- Insert `x` into `l`, keeping elements on which `le` holds first. -/
def insertLe {α : Type} (le : α → α → Bool) (x : α) : List α → List α
  | [] => [x]
  | y :: ys => if le x y then x :: y :: ys else y :: insertLe le x ys

/-- Stable insertion sort by the Boolean comparator `le`. -/
def sortByLe {α : Type} (le : α → α → Bool) : List α → List α
  | [] => []
  | x :: xs => insertLe le x (sortByLe le xs)

/-! ### Data model: the two tables of `spending.db` -/

/-- A row of the `categories` table. -/
structure Category where
  id : Nat
  name : String
  description : Option String
  budget_limit : Option Int
  created_at : Nat
deriving Repr, DecidableEq

/-- A row of the `expenses` table. -/
structure Expense where
  id : Nat
  category_id : Nat
  company_name : String
  amount : Int
  sales_email : String
  due_date : Option String
  status : String
  invoice_url : Option String
  created_at : Nat
deriving Repr, DecidableEq

/-- The database state: the two tables. -/
structure DB where
  categories : List Category
  expenses : List Expense
deriving Repr, DecidableEq

/-! ### The paid-expense left join shared by `list_categories` and
`get_spending_summary` -/

/-- The expenses of category `cid` with `status = 'paid'`: the rows of
`expenses e` matching the join condition
`c.id = e.category_id AND e.status = 'paid'`. -/
def paidExpenses (db : DB) (cid : Nat) : List Expense :=
  db.expenses.filter (fun e => e.category_id == cid && e.status == "paid")

/-- The group of left-join rows produced for one category row `c` by
`FROM categories c LEFT JOIN expenses e ON c.id = e.category_id AND
e.status = 'paid' GROUP BY c.id`: the matching expense rows, or a single
row with a NULL expense side when none match. -/
def leftJoinPaid (db : DB) (c : Category) : List (Option Expense) :=
  let ms := paidExpenses db c.id
  if ms.isEmpty then [none] else ms.map some

/-- SQL `SUM(e.amount)` over a group: NULL values are skipped and the sum
of an empty set of values is NULL. -/
def sqlSumAmount (rows : List (Option Expense)) : Option Int :=
  let vs := rows.filterMap (fun r => r.map (fun e => e.amount))
  if vs.isEmpty then none else some vs.sum

/-- SQL `COUNT(e.id)` over a group: the number of non-NULL `e.id` values. -/
def sqlCountId (rows : List (Option Expense)) : Nat :=
  (rows.filterMap (fun r => r.map (fun e => e.id))).length

/-! ### Category tools -/

/-- One element of the array returned by `list_categories`: `c.*` plus the
computed `total_spent`. -/
structure CategoryRow where
  id : Nat
  name : String
  description : Option String
  budget_limit : Option Int
  created_at : Nat
  total_spent : Int
deriving Repr, DecidableEq

/-- `list_categories()`: all categories with
`COALESCE(SUM(e.amount), 0) as total_spent` over the paid left join,
`ORDER BY c.created_at DESC`. -/
def list_categories (db : DB) : List CategoryRow :=
  sortByLe (fun a b => b.created_at ≤ a.created_at)
    (db.categories.map (fun c =>
      { id := c.id, name := c.name, description := c.description,
        budget_limit := c.budget_limit, created_at := c.created_at,
        total_spent := (sqlSumAmount (leftJoinPaid db c)).getD 0 }))

/-- `create_category(name, description?, budget?)`: inserts a row; the
store assigns the next free id and the creation timestamp `now`.
Returns the new state and the new id. -/
def create_category (db : DB) (name : String) (description : Option String)
    (budget : Option Int) (now : Nat) : DB × Nat :=
  let cid := (db.categories.map (fun c => c.id)).foldr max 0 + 1
  ({ db with categories := db.categories ++
      [{ id := cid, name := name, description := description,
         budget_limit := budget, created_at := now }] }, cid)

/-! ### Expense tools -/

/-- The `AND category_id = ?` clause, added only when `category_id` is not
`None` in the Python source. -/
def catClause (category_id : Option Nat) (e : Expense) : Bool :=
  match category_id with
  | some cid => e.category_id == cid
  | none => true

/-- The `AND status = ?` clause.  The Python source guards it with
`if status:`, which is Python truthiness: the clause is added only when
`status` is neither `None` nor the empty string. -/
def statusClause (status : Option String) (e : Expense) : Bool :=
  match status with
  | some s => if s == "" then true else e.status == s
  | none => true

/-- `list_expenses(category_id?, status?)`: `SELECT * FROM expenses WHERE
1=1` plus the optional clauses, `ORDER BY created_at DESC`. -/
def list_expenses (db : DB) (category_id : Option Nat)
    (status : Option String) : List Expense :=
  sortByLe (fun a b => b.created_at ≤ a.created_at)
    (db.expenses.filter (fun e => catClause category_id e && statusClause status e))

/-- The id SQLite assigns to a newly inserted expense row. -/
def nextExpenseId (db : DB) : Nat :=
  (db.expenses.map (fun e => e.id)).foldr max 0 + 1

/-- `create_expense(company_name, amount, category_id, sales_email,
due_date?)`: `INSERT INTO expenses (...) VALUES (?, ?, ?, ?, ?, 'pending')`.
The `status` column is the literal `'pending'`; `invoice_url` is not in the
column list, so it is NULL.  Returns the new state and the new id. -/
def create_expense (db : DB) (company_name : String) (amount : Int)
    (category_id : Nat) (sales_email : String) (due_date : Option String)
    (now : Nat) : DB × Nat :=
  let eid := nextExpenseId db
  ({ db with expenses := db.expenses ++
      [{ id := eid, category_id := category_id, company_name := company_name,
         amount := amount, sales_email := sales_email, due_date := due_date,
         status := "pending", invoice_url := none, created_at := now }] }, eid)

/-- `SELECT * FROM expenses WHERE id = ?` followed by `fetchone()`. -/
def findExpense (db : DB) (id : Nat) : Option Expense :=
  db.expenses.find? (fun e => e.id == id)

/-- `get_expense(id)`: the expense, or the not-found message.  The call is
read-only, so the state component is returned unchanged. -/
def get_expense (db : DB) (id : Nat) : DB × Except String Expense :=
  match findExpense db id with
  | none =>
      (db, Except.error ("Error: Expense with ID " ++ toString id ++ " not found"))
  | some e => (db, Except.ok e)

/-- The optional arguments of `update_expense`; `none` means the argument
was not supplied (Python `None`). -/
structure UpdateFields where
  company_name : Option String := none
  amount : Option Int := none
  category_id : Option Nat := none
  sales_email : Option String := none
  due_date : Option String := none
  status : Option String := none
deriving Repr, DecidableEq

/-- True when no optional field was supplied: in the source, the `updates`
list stays empty and the tool answers `"No fields to update"`. -/
def UpdateFields.isEmpty (f : UpdateFields) : Bool :=
  f.company_name.isNone && f.amount.isNone && f.category_id.isNone &&
  f.sales_email.isNone && f.due_date.isNone && f.status.isNone

/-- The dynamically built `UPDATE expenses SET ... WHERE id = ?` applied to
one row: each supplied field is overwritten, every other column keeps its
value. -/
def applyUpdate (f : UpdateFields) (e : Expense) : Expense :=
  { e with
    company_name := f.company_name.getD e.company_name,
    amount := f.amount.getD e.amount,
    category_id := f.category_id.getD e.category_id,
    sales_email := f.sales_email.getD e.sales_email,
    due_date := match f.due_date with
      | some d => some d
      | none => e.due_date,
    status := f.status.getD e.status }

/-- `update_expense(id, fields...)`: checks existence first, then either
reports the not-found error, reports that no fields were supplied, or runs
the dynamically built UPDATE on the rows matching `id`. -/
def update_expense (db : DB) (id : Nat) (f : UpdateFields) : DB × String :=
  match findExpense db id with
  | none => (db, "Error: Expense with ID " ++ toString id ++ " not found")
  | some _ =>
    if f.isEmpty then (db, "No fields to update")
    else
      ({ db with expenses :=
          db.expenses.map (fun e => if e.id == id then applyUpdate f e else e) },
       "Expense " ++ toString id ++ " updated successfully")

/-- `delete_expense(id)`: `DELETE FROM expenses WHERE id = ?` is executed
and committed unconditionally; the message depends on `cursor.rowcount`,
the number of rows removed. -/
def delete_expense (db : DB) (id : Nat) : DB × String :=
  let remaining := db.expenses.filter (fun e => e.id != id)
  let removed := db.expenses.length - remaining.length
  ({ db with expenses := remaining },
   if removed == 0 then "Error: Expense with ID " ++ toString id ++ " not found"
   else "Expense " ++ toString id ++ " deleted successfully")

/-! ### Analytics tool -/

/-- One element of `by_category` in the summary. -/
structure SummaryRow where
  category : String
  total_spent : Int
  expense_count : Nat
  budget : Option Int
deriving Repr, DecidableEq

/-- The row `get_spending_summary`'s query yields for one category:
`c.name, c.budget_limit, COALESCE(SUM(e.amount), 0), COUNT(e.id)` over the
paid left join. -/
def summaryRowOf (db : DB) (c : Category) : SummaryRow :=
  let rows := leftJoinPaid db c
  { category := c.name,
    total_spent := (sqlSumAmount rows).getD 0,
    expense_count := sqlCountId rows,
    budget := c.budget_limit }

/-- The value returned by `get_spending_summary`. -/
structure Summary where
  total_spending : Int
  by_category : List SummaryRow
deriving Repr, DecidableEq

/-- `get_spending_summary()`: the per-category rows `ORDER BY total_spent
DESC`, with `total_spending` accumulated over the fetched rows.  (The
Python `row["total_spent"] or 0` is the identity here: the column is
already `COALESCE`d to a number, and `0 or 0` is `0`.) -/
def get_spending_summary (db : DB) : Summary :=
  let rows := sortByLe (fun a b => b.total_spent ≤ a.total_spent)
    (db.categories.map (summaryRowOf db))
  { total_spending := (rows.map (fun r => r.total_spent)).sum,
    by_category := rows }

/-! ### Operation sequences, for reachability claims -/

/-- One state-changing expense operation, as invoked by a client. -/
inductive Op where
  | create (company_name : String) (amount : Int) (category_id : Nat)
      (sales_email : String) (due_date : Option String) (now : Nat)
  | update (id : Nat) (f : UpdateFields)
deriving Repr, DecidableEq

/-- Apply one operation to the state, discarding the reply. -/
def applyOp (db : DB) : Op → DB
  | Op.create cn a cid se dd now => (create_expense db cn a cid se dd now).1
  | Op.update id f => (update_expense db id f).1

/-- Run a sequence of operations. -/
def runOps (db : DB) (ops : List Op) : DB := ops.foldl applyOp db

/-- The status strings the documentation enumerates. -/
def validStatus (s : String) : Bool :=
  s == "pending" || s == "paid" || s == "cancelled"

/-- An operation that only ever writes a documented status value. -/
def opStatusOK : Op → Bool
  | Op.create _ _ _ _ _ _ => true
  | Op.update _ f =>
    match f.status with
    | none => true
    | some s => validStatus s

/-! ### Concrete states used by witnesses and counterexamples -/

/-- The empty database. -/
def emptyDB : DB := { categories := [], expenses := [] }

/-- A paid expense whose `category_id` (99) matches no category row. -/
def orphanPaidExpense : Expense :=
  { id := 7, category_id := 99, company_name := "Acme", amount := 5,
    sales_email := "sales@acme.test", due_date := none, status := "paid",
    invoice_url := none, created_at := 10 }

/-- No categories, one orphan paid expense. -/
def orphanDB : DB := { categories := [], expenses := [orphanPaidExpense] }

/-- A category with a budget. -/
def softwareCategory : Category :=
  { id := 1, name := "Software", description := none,
    budget_limit := some 5000, created_at := 1 }

/-- A second category, with no budget and no expenses. -/
def officeCategory : Category :=
  { id := 2, name := "Office", description := none,
    budget_limit := none, created_at := 2 }

/-- A paid expense in category 1. -/
def paidSoftwareExpense : Expense :=
  { id := 1, category_id := 1, company_name := "TechSupplies Inc", amount := 891,
    sales_email := "sales@techsupplies.test", due_date := none, status := "paid",
    invoice_url := none, created_at := 3 }

/-- Two categories (distinct ids), one paid expense and one orphan paid
expense. -/
def summaryDB : DB :=
  { categories := [softwareCategory, officeCategory],
    expenses := [paidSoftwareExpense, orphanPaidExpense] }

/-- A pending expense, for the status-filter counterexample. -/
def pendingExpense : Expense :=
  { id := 2, category_id := 1, company_name := "Acme", amount := 5,
    sales_email := "sales@acme.test", due_date := none, status := "pending",
    invoice_url := none, created_at := 4 }

/-- One pending expense, no categories. -/
def pendingDB : DB := { categories := [], expenses := [pendingExpense] }

/-- Update arguments supplying only `status`. -/
def statusOnly (s : String) : UpdateFields := { status := some s }

/-- A client run that writes an undocumented status string. -/
def bogusOps : List Op :=
  [Op.create "Acme" 5 1 "sales@acme.test" none 0,
   Op.update 1 (statusOnly "bogus")]

/-- A client run that stays within the documented statuses. -/
def okOps : List Op :=
  [Op.create "Acme" 5 1 "sales@acme.test" none 0,
   Op.update 1 (statusOnly "paid")]

/-! ### Lemmas about the insertion sort -/

theorem perm_insertLe {α : Type} (le : α → α → Bool) (x : α) (l : List α) :
    (insertLe le x l).Perm (x :: l) := by
  induction l with
  | nil => exact List.Perm.refl _
  | cons y ys ih =>
    by_cases h : le x y = true
    · simp [insertLe, h]
    · simp only [insertLe, if_neg h]
      exact (ih.cons y).trans (List.Perm.swap x y ys)

theorem perm_sortByLe {α : Type} (le : α → α → Bool) (l : List α) :
    (sortByLe le l).Perm l := by
  induction l with
  | nil => exact List.Perm.refl _
  | cons x xs ih => exact (perm_insertLe le x (sortByLe le xs)).trans (ih.cons x)

theorem mem_insertLe {α : Type} {le : α → α → Bool} {x a : α} {l : List α} :
    a ∈ insertLe le x l ↔ a = x ∨ a ∈ l := by
  rw [(perm_insertLe le x l).mem_iff]
  exact List.mem_cons

theorem pairwise_insertLe {α : Type} (le : α → α → Bool)
    (htrans : ∀ a b c, le a b = true → le b c = true → le a c = true)
    (htotal : ∀ a b, le a b = true ∨ le b a = true)
    (x : α) {l : List α} (hl : l.Pairwise (fun a b => le a b = true)) :
    (insertLe le x l).Pairwise (fun a b => le a b = true) := by
  induction l with
  | nil => simp [insertLe]
  | cons y ys ih =>
    rcases List.pairwise_cons.mp hl with ⟨hy, hys⟩
    by_cases h : le x y = true
    · simp only [insertLe, if_pos h]
      refine List.Pairwise.cons ?_ hl
      intro a ha
      rcases List.mem_cons.mp ha with rfl | ha
      · exact h
      · exact htrans x y a h (hy a ha)
    · simp only [insertLe, if_neg h]
      refine List.Pairwise.cons ?_ (ih hys)
      intro a ha
      rcases mem_insertLe.mp ha with rfl | ha
      · rcases htotal a y with h1 | h1
        · exact absurd h1 h
        · exact h1
      · exact hy a ha

theorem pairwise_sortByLe {α : Type} (le : α → α → Bool)
    (htrans : ∀ a b c, le a b = true → le b c = true → le a c = true)
    (htotal : ∀ a b, le a b = true ∨ le b a = true)
    (l : List α) :
    (sortByLe le l).Pairwise (fun a b => le a b = true) := by
  induction l with
  | nil => simp [sortByLe]
  | cons x xs ih => exact pairwise_insertLe le htrans htotal x ih

theorem sum_map_sortByLe {α : Type} (le : α → α → Bool) (f : α → Int)
    (l : List α) : ((sortByLe le l).map f).sum = (l.map f).sum :=
  ((perm_sortByLe le l).map f).sum_eq

/-! ### Lemmas about the paid-expense left join -/

theorem getD_sqlSumAmount_leftJoinPaid (db : DB) (c : Category) :
    (sqlSumAmount (leftJoinPaid db c)).getD 0
      = ((paidExpenses db c.id).map (fun e => e.amount)).sum := by
  by_cases h : (paidExpenses db c.id).isEmpty = true
  · simp [leftJoinPaid, sqlSumAmount, List.isEmpty_iff.mp h]
  · simp only [leftJoinPaid, sqlSumAmount, if_neg h]
    rw [List.filterMap_map]
    have hmap : List.filterMap ((fun r => Option.map (fun e => e.amount) r) ∘ some)
        (paidExpenses db c.id) = (paidExpenses db c.id).map (fun e => e.amount) := by
      simp [Function.comp]
    rw [hmap]
    have hne : ((paidExpenses db c.id).map (fun e => e.amount)).isEmpty = false := by
      cases hc : paidExpenses db c.id with
      | nil => rw [hc] at h; simp at h
      | cons a l => simp [hc]
    simp [hne]

theorem sqlCountId_leftJoinPaid (db : DB) (c : Category) :
    sqlCountId (leftJoinPaid db c) = (paidExpenses db c.id).length := by
  by_cases h : (paidExpenses db c.id).isEmpty = true
  · simp [leftJoinPaid, sqlCountId, List.isEmpty_iff.mp h]
  · simp only [leftJoinPaid, sqlCountId, if_neg h]
    rw [List.filterMap_map]
    have hmap : List.filterMap ((fun r => Option.map (fun e => e.id) r) ∘ some)
        (paidExpenses db c.id) = (paidExpenses db c.id).map (fun e => e.id) := by
      simp [Function.comp]
    rw [hmap]
    simp

theorem summaryRowOf_eq (db : DB) (c : Category) :
    summaryRowOf db c =
      { category := c.name,
        total_spent := ((paidExpenses db c.id).map (fun e => e.amount)).sum,
        expense_count := (paidExpenses db c.id).length,
        budget := c.budget_limit } := by
  simp [summaryRowOf, getD_sqlSumAmount_leftJoinPaid, sqlCountId_leftJoinPaid]

/-! ### Partitioning the paid total across categories -/

theorem sum_map_filter_or {α : Type} (p q : α → Bool) (f : α → Int)
    (hdisj : ∀ a, ¬(p a = true ∧ q a = true)) (l : List α) :
    ((l.filter (fun a => p a || q a)).map f).sum
      = ((l.filter p).map f).sum + ((l.filter q).map f).sum := by
  induction l with
  | nil => simp
  | cons a l ih =>
    by_cases hp : p a = true
    · have hq : q a = false := by
        cases hq : q a with
        | false => rfl
        | true => exact absurd ⟨hp, hq⟩ (hdisj a)
      simp [List.filter_cons, hp, hq, ih]
      ring
    · have hp0 : p a = false := by
        cases hpc : p a with
        | false => rfl
        | true => exact absurd hpc hp
      by_cases hq : q a = true
      · simp [List.filter_cons, hp0, hq, ih]
        ring
      · have hq0 : q a = false := by
          cases hqc : q a with
          | false => rfl
          | true => exact absurd hqc hq
        simp [List.filter_cons, hp0, hq0, ih]

/-- Summing the per-category paid totals over a duplicate-free list of
category ids equals one pass over the expenses, keeping the paid ones whose
`category_id` occurs among those ids. -/
theorem sum_paid_by_ids (es : List Expense) (ids : List Nat) (hnd : ids.Nodup) :
    ((ids.map (fun cid =>
        ((es.filter (fun e => e.category_id == cid && e.status == "paid")).map
          (fun e => e.amount)).sum)).sum)
      = ((es.filter (fun e => e.status == "paid" && ids.contains e.category_id)).map
          (fun e => e.amount)).sum := by
  induction ids with
  | nil =>
    have h0 : es.filter (fun e => e.status == "paid" && List.contains [] e.category_id)
        = [] := by
      apply List.filter_eq_nil_iff.mpr
      intro e _
      simp
    simp [h0]
  | cons cid ids ih =>
    rcases List.nodup_cons.mp hnd with ⟨hmem, hnd2⟩
    have hcongr : es.filter (fun e => e.status == "paid"
          && List.contains (cid :: ids) e.category_id)
        = es.filter (fun e => (e.category_id == cid && e.status == "paid")
          || (e.status == "paid" && ids.contains e.category_id)) := by
      apply List.filter_congr
      intro e _
      simp only [List.contains_cons]
      cases hs : (e.status == "paid") <;> cases hc : (e.category_id == cid) <;> simp
    have hdisj : ∀ e : Expense,
        ¬((e.category_id == cid && e.status == "paid") = true
          ∧ (e.status == "paid" && ids.contains e.category_id) = true) := by
      intro e ⟨h1, h2⟩
      have hc : e.category_id = cid := by
        have h1a := (Bool.and_eq_true _ _).mp h1
        simpa using h1a.1
      have hin : ids.contains e.category_id = true :=
        ((Bool.and_eq_true _ _).mp h2).2
      rw [hc] at hin
      exact hmem (by simpa using hin)
    rw [List.map_cons, List.sum_cons, ih hnd2, hcongr,
      sum_map_filter_or _ _ _ hdisj]

/-! ### Fresh-id and lookup lemmas -/

theorem le_foldr_max (l : List Nat) : ∀ x ∈ l, x ≤ l.foldr max 0 := by
  induction l with
  | nil => intro x hx; cases hx
  | cons a l ih =>
    intro x hx
    rcases List.mem_cons.mp hx with rfl | hx
    · exact Nat.le_max_left _ _
    · exact Nat.le_trans (ih x hx) (Nat.le_max_right _ _)

/-- No existing expense row carries the id the store will assign next. -/
theorem nextExpenseId_fresh (db : DB) :
    ∀ e ∈ db.expenses, e.id ≠ nextExpenseId db := by
  intro e he h
  have hle : e.id ≤ (db.expenses.map (fun e => e.id)).foldr max 0 :=
    le_foldr_max _ _ (List.mem_map_of_mem _ he)
  rw [h] at hle
  simp only [nextExpenseId] at hle
  omega

theorem find?_eq_none_of_fresh (db : DB) :
    db.expenses.find? (fun e => e.id == nextExpenseId db) = none := by
  apply List.find?_eq_none.mpr
  intro e he
  simpa using nextExpenseId_fresh db e he

/-! ### The claims -/

/-- C2: For every invocation of `create_expense`, regardless of the
arguments supplied, the newly inserted expense row has `status = 'pending'`
(and the row is appended with exactly the supplied field values, retrievable
under the returned id). -/
theorem create_expense_always_pending (db : DB) (cn : String) (a : Int)
    (cid : Nat) (se : String) (dd : Option String) (now : Nat) :
    ∃ e : Expense,
      (create_expense db cn a cid se dd now).1.expenses = db.expenses ++ [e]
      ∧ e.status = "pending"
      ∧ findExpense (create_expense db cn a cid se dd now).1
          (create_expense db cn a cid se dd now).2 = some e
      ∧ e.id = (create_expense db cn a cid se dd now).2
      ∧ e.company_name = cn ∧ e.amount = a ∧ e.category_id = cid
      ∧ e.sales_email = se ∧ e.due_date = dd ∧ e.invoice_url = none := by
  refine ⟨{ id := nextExpenseId db, category_id := cid, company_name := cn,
            amount := a, sales_email := se, due_date := dd,
            status := "pending", invoice_url := none, created_at := now },
    rfl, rfl, ?_, rfl, rfl, rfl, rfl, rfl, rfl, rfl⟩
  have h2 : (create_expense db cn a cid se dd now).2 = nextExpenseId db := rfl
  show List.find? _ (db.expenses ++ _) = _
  rw [h2, List.find?_append, find?_eq_none_of_fresh db]
  simp

/-- C7: `get_expense`, `update_expense` and `delete_expense` on an id that
matches no expense row each return the not-found message and leave the
database state unchanged (all three are total functions: no exception
escapes). -/
theorem missing_id_is_reported (db : DB) (id : Nat) (f : UpdateFields)
    (h : findExpense db id = none) :
    get_expense db id
      = (db, Except.error ("Error: Expense with ID " ++ toString id ++ " not found"))
    ∧ update_expense db id f
      = (db, "Error: Expense with ID " ++ toString id ++ " not found")
    ∧ delete_expense db id
      = (db, "Error: Expense with ID " ++ toString id ++ " not found") := by
  have hall : ∀ e ∈ db.expenses, (e.id != id) = true := by
    intro e he
    have hne := List.find?_eq_none.mp h e he
    simpa using hne
  have hfilter : db.expenses.filter (fun e => e.id != id) = db.expenses :=
    List.filter_eq_self.mpr hall
  refine ⟨?_, ?_, ?_⟩
  · simp [get_expense, h]
  · simp [update_expense, h]
  · simp [delete_expense, hfilter]

/-- Witness for C7 at the empty database and id 99. -/
theorem missing_id_is_reported_witness :
    findExpense emptyDB 99 = none
    ∧ (get_expense emptyDB 99
        = (emptyDB, Except.error ("Error: Expense with ID " ++ toString 99 ++ " not found"))
      ∧ update_expense emptyDB 99 {}
        = (emptyDB, "Error: Expense with ID " ++ toString 99 ++ " not found")
      ∧ delete_expense emptyDB 99
        = (emptyDB, "Error: Expense with ID " ++ toString 99 ++ " not found")) :=
  ⟨by decide, missing_id_is_reported emptyDB 99 {} (by decide)⟩

/-- C8: `update_expense` on a missing id reports not-found; on an existing
id with no supplied fields it mutates nothing and reports that no update
occurred. -/
theorem update_expense_guards (db : DB) (id : Nat) (f : UpdateFields) :
    (findExpense db id = none →
      update_expense db id f
        = (db, "Error: Expense with ID " ++ toString id ++ " not found"))
    ∧ (findExpense db id ≠ none → f.isEmpty = true →
      update_expense db id f = (db, "No fields to update")) := by
  constructor
  · intro h
    simp [update_expense, h]
  · intro h hf
    rcases hopt : findExpense db id with _ | e
    · exact absurd hopt h
    · simp [update_expense, hopt, hf]

/-- Witness for C8: the not-found branch at the empty database, and the
no-fields branch at a database holding expense 2. -/
theorem update_expense_guards_witness :
    (update_expense emptyDB 99 {}
      = (emptyDB, "Error: Expense with ID " ++ toString 99 ++ " not found"))
    ∧ (update_expense pendingDB 2 {} = (pendingDB, "No fields to update")) :=
  ⟨(update_expense_guards emptyDB 99 {}).1 (by decide),
   (update_expense_guards pendingDB 2 {}).2 (by decide) (by decide)⟩

/-- C10: supplying `status` as the empty string behaves exactly like
omitting it: the Python guard `if status:` is falsy for `""`, so the status
filter is not applied. -/
theorem empty_status_means_no_filter (db : DB) (category_id : Option Nat) :
    list_expenses db category_id (some "") = list_expenses db category_id none := rfl

/-- C4: `get_spending_summary` returns one row per category carrying the
category's paid total (`0` when it has no paid expense), the count of its
paid expenses, and its `budget_limit`, ordered by descending total spend;
categories with no paid expenses still appear, with total 0 and count 0. -/
theorem summary_by_category_correct (db : DB) :
    (get_spending_summary db).by_category.Perm
      (db.categories.map (fun c =>
        ({ category := c.name,
           total_spent := ((paidExpenses db c.id).map (fun e => e.amount)).sum,
           expense_count := (paidExpenses db c.id).length,
           budget := c.budget_limit } : SummaryRow)))
    ∧ (get_spending_summary db).by_category.Pairwise
        (fun a b => b.total_spent ≤ a.total_spent) := by
  have h1 : (get_spending_summary db).by_category
      = sortByLe (fun a b => b.total_spent ≤ a.total_spent)
          (db.categories.map (summaryRowOf db)) := rfl
  constructor
  · rw [h1]
    refine (perm_sortByLe _ _).trans ?_
    have hmap : db.categories.map (summaryRowOf db)
        = db.categories.map (fun c =>
          ({ category := c.name,
             total_spent := ((paidExpenses db c.id).map (fun e => e.amount)).sum,
             expense_count := (paidExpenses db c.id).length,
             budget := c.budget_limit } : SummaryRow)) :=
      List.map_congr_left (fun c _ => summaryRowOf_eq db c)
    rw [hmap]
  · rw [h1]
    have hp := pairwise_sortByLe
      (fun a b : SummaryRow => b.total_spent ≤ a.total_spent)
      (fun a b c hab hbc => by
        simp only [decide_eq_true_eq] at hab hbc ⊢
        omega)
      (fun a b => by
        simp only [decide_eq_true_eq]
        exact Int.le_total _ _)
      (db.categories.map (summaryRowOf db))
    exact hp.imp (fun h => of_decide_eq_true h)

/-- C5: `list_categories` returns every category row exactly once, each
augmented with `total_spent` equal to the sum of its paid expenses' amounts
(`0` when it has none, in particular for a newly created category), ordered
by creation time with the most recent first. -/
theorem list_categories_correct (db : DB) :
    (list_categories db).Perm
      (db.categories.map (fun c =>
        ({ id := c.id, name := c.name, description := c.description,
           budget_limit := c.budget_limit, created_at := c.created_at,
           total_spent := ((paidExpenses db c.id).map (fun e => e.amount)).sum }
          : CategoryRow)))
    ∧ (list_categories db).Pairwise (fun a b => b.created_at ≤ a.created_at) := by
  constructor
  · refine (perm_sortByLe _ _).trans ?_
    have hmap : db.categories.map (fun c =>
          ({ id := c.id, name := c.name, description := c.description,
             budget_limit := c.budget_limit, created_at := c.created_at,
             total_spent := (sqlSumAmount (leftJoinPaid db c)).getD 0 }
            : CategoryRow))
        = db.categories.map (fun c =>
          ({ id := c.id, name := c.name, description := c.description,
             budget_limit := c.budget_limit, created_at := c.created_at,
             total_spent := ((paidExpenses db c.id).map (fun e => e.amount)).sum }
            : CategoryRow)) := by
      simp only [getD_sqlSumAmount_leftJoinPaid]
    rw [hmap]
  · have hp := pairwise_sortByLe
      (fun a b : CategoryRow => b.created_at ≤ a.created_at)
      (fun a b c hab hbc => by
        simp only [decide_eq_true_eq] at hab hbc ⊢
        omega)
      (fun a b => by
        simp only [decide_eq_true_eq]
        exact Nat.le_total _ _)
      (db.categories.map (fun c =>
        ({ id := c.id, name := c.name, description := c.description,
           budget_limit := c.budget_limit, created_at := c.created_at,
           total_spent := (sqlSumAmount (leftJoinPaid db c)).getD 0 }
          : CategoryRow)))
    exact hp.imp (fun h => of_decide_eq_true h)

/-- C6 (amended): `list_expenses` returns exactly the expense rows passing
the category filter (exact match, when supplied) and the status filter
(exact match, when supplied non-empty; an empty-string status applies no
filter, see `statusClause`), combined by AND, ordered by creation time most
recent first; with no arguments it returns all expenses. -/
theorem list_expenses_correct (db : DB) (category_id : Option Nat)
    (status : Option String) :
    (list_expenses db category_id status).Perm
      (db.expenses.filter (fun e => catClause category_id e && statusClause status e))
    ∧ (∀ e : Expense, e ∈ list_expenses db category_id status ↔
        (e ∈ db.expenses ∧ catClause category_id e = true
          ∧ statusClause status e = true))
    ∧ (list_expenses db category_id status).Pairwise
        (fun a b => b.created_at ≤ a.created_at)
    ∧ (list_expenses db none none).Perm db.expenses := by
  have hperm := perm_sortByLe (fun a b : Expense => b.created_at ≤ a.created_at)
    (db.expenses.filter (fun e => catClause category_id e && statusClause status e))
  refine ⟨hperm, ?_, ?_, ?_⟩
  · intro e
    rw [show list_expenses db category_id status
        = sortByLe (fun a b => b.created_at ≤ a.created_at)
            (db.expenses.filter (fun e =>
              catClause category_id e && statusClause status e)) from rfl]
    rw [hperm.mem_iff, List.mem_filter, Bool.and_eq_true]
  · have hp := pairwise_sortByLe
      (fun a b : Expense => b.created_at ≤ a.created_at)
      (fun a b c hab hbc => by
        simp only [decide_eq_true_eq] at hab hbc ⊢
        omega)
      (fun a b => by
        simp only [decide_eq_true_eq]
        exact Nat.le_total _ _)
      (db.expenses.filter (fun e =>
        catClause category_id e && statusClause status e))
    exact hp.imp (fun h => of_decide_eq_true h)
  · have hall : db.expenses.filter
        (fun e => catClause none e && statusClause none e) = db.expenses :=
      List.filter_eq_self.mpr (fun a _ => rfl)
    have hpn := perm_sortByLe (fun a b : Expense => b.created_at ≤ a.created_at)
      (db.expenses.filter (fun e => catClause none e && statusClause none e))
    have h2 : (db.expenses.filter
        (fun e => catClause none e && statusClause none e)).Perm db.expenses := by
      rw [hall]
    exact hpn.trans h2

/-- C6 fails as literally stated: with `status` supplied as the empty
string, `list_expenses` returns a row whose status is `"pending"`, not
`""` — the empty-string status filter is silently dropped. -/
theorem list_expenses_empty_status_counterexample :
    list_expenses pendingDB none (some "") = [pendingExpense]
    ∧ pendingExpense.status ≠ "" := ⟨by decide, by decide⟩

/-- C1 (amended): `total_spending` equals the sum of the returned
per-category `total_spent` values, and — provided category ids are unique,
as the primary key guarantees — equals the sum of `amount` over the paid
expenses whose `category_id` matches an existing category row.  (Paid
expenses with no matching category row are excluded by the join.) -/
theorem total_spending_consistency (db : DB)
    (hnd : (db.categories.map (fun c => c.id)).Nodup) :
    (get_spending_summary db).total_spending
      = ((get_spending_summary db).by_category.map (fun r => r.total_spent)).sum
    ∧ (get_spending_summary db).total_spending
      = ((db.expenses.filter (fun e => e.status == "paid"
            && (db.categories.map (fun c => c.id)).contains e.category_id)).map
          (fun e => e.amount)).sum := by
  constructor
  · rfl
  · have h1 : (get_spending_summary db).total_spending
        = ((sortByLe (fun a b => b.total_spent ≤ a.total_spent)
            (db.categories.map (summaryRowOf db))).map
            (fun r => r.total_spent)).sum := rfl
    rw [h1, sum_map_sortByLe, List.map_map]
    have h2 : ((fun r : SummaryRow => r.total_spent) ∘ summaryRowOf db)
        = fun c : Category =>
          ((paidExpenses db c.id).map (fun e => e.amount)).sum := by
      funext c
      simp [summaryRowOf_eq]
    rw [h2]
    have h3 := sum_paid_by_ids db.expenses (db.categories.map (fun c => c.id)) hnd
    rw [List.map_map] at h3
    exact h3

/-- Witness for C1 at a state with two distinct-id categories, one paid
expense in a category and one orphan paid expense. -/
theorem total_spending_consistency_witness :
    (summaryDB.categories.map (fun c => c.id)).Nodup
    ∧ ((get_spending_summary summaryDB).total_spending
        = ((get_spending_summary summaryDB).by_category.map
            (fun r => r.total_spent)).sum
      ∧ (get_spending_summary summaryDB).total_spending
        = ((summaryDB.expenses.filter (fun e => e.status == "paid"
              && (summaryDB.categories.map (fun c => c.id)).contains
                  e.category_id)).map (fun e => e.amount)).sum) :=
  ⟨by decide, total_spending_consistency summaryDB (by decide)⟩

/-- C1 fails as literally stated: in `orphanDB` the only expense is paid
with amount 5 but references no existing category, and `total_spending`
is 0, not the sum of `amount` over all paid expenses. -/
theorem total_spending_orphan_counterexample :
    (get_spending_summary orphanDB).total_spending = 0
    ∧ ((orphanDB.expenses.filter (fun e => e.status == "paid")).map
        (fun e => e.amount)).sum = 5
    ∧ (get_spending_summary orphanDB).total_spending
      ≠ ((orphanDB.expenses.filter (fun e => e.status == "paid")).map
          (fun e => e.amount)).sum :=
  ⟨by decide, by decide, by decide⟩

/-- C3: updating an existing expense with a non-empty subset of the mutable
fields overwrites exactly the supplied fields; every unsupplied field of the
row, and every row with a different id, keeps its prior value, and a
subsequent lookup of the id returns the updated row. -/
theorem update_only_supplied_fields (db : DB) (id : Nat) (f : UpdateFields)
    (e : Expense) (hfind : findExpense db id = some e)
    (hne : f.isEmpty = false) :
    findExpense (update_expense db id f).1 id = some (applyUpdate f e)
    ∧ (applyUpdate f e).company_name = f.company_name.getD e.company_name
    ∧ (applyUpdate f e).amount = f.amount.getD e.amount
    ∧ (applyUpdate f e).category_id = f.category_id.getD e.category_id
    ∧ (applyUpdate f e).sales_email = f.sales_email.getD e.sales_email
    ∧ (applyUpdate f e).due_date
        = (match f.due_date with | some d => some d | none => e.due_date)
    ∧ (applyUpdate f e).status = f.status.getD e.status
    ∧ (applyUpdate f e).id = e.id
    ∧ (applyUpdate f e).invoice_url = e.invoice_url
    ∧ (applyUpdate f e).created_at = e.created_at
    ∧ (∀ e2 ∈ db.expenses, e2.id ≠ id → e2 ∈ (update_expense db id f).1.expenses)
    ∧ (∀ e2 ∈ (update_expense db id f).1.expenses, e2.id ≠ id → e2 ∈ db.expenses)
    ∧ (update_expense db id f).1.expenses.length = db.expenses.length
    ∧ (update_expense db id f).1.categories = db.categories := by
  have hdb : (update_expense db id f).1
      = { db with expenses :=
          db.expenses.map (fun x => if x.id == id then applyUpdate f x else x) } := by
    simp [update_expense, hfind, hne]
  have hgid : ∀ x : Expense,
      ((fun x => if x.id == id then applyUpdate f x else x) x).id = x.id := by
    intro x
    by_cases h : (x.id == id) = true
    · simp only [if_pos h]
      rfl
    · simp only [if_neg h]
  refine ⟨?_, rfl, rfl, rfl, rfl, rfl, rfl, rfl, rfl, rfl, ?_, ?_, ?_, ?_⟩
  · rw [hdb]
    show (db.expenses.map (fun x => if x.id == id then applyUpdate f x else x)).find?
        (fun x => x.id == id) = some (applyUpdate f e)
    rw [List.find?_map]
    have hcomp : ((fun x : Expense => x.id == id)
          ∘ (fun x => if x.id == id then applyUpdate f x else x))
        = fun x : Expense => x.id == id := by
      funext x
      simp only [Function.comp]
      rw [hgid x]
    rw [hcomp]
    have hfind2 : db.expenses.find? (fun x => x.id == id) = some e := hfind
    rw [hfind2]
    have hpe := List.find?_some hfind2
    simp [hpe]
    intro hcontra
    exact absurd (by simpa using hpe) hcontra
  · intro e2 he2 hne2
    rw [hdb]
    have hbeq : (e2.id == id) = false := by simpa using hne2
    have hg : (fun x : Expense => if x.id == id then applyUpdate f x else x) e2
        = e2 := by simp [hbeq]
    exact hg ▸ List.mem_map_of_mem _ he2
  · intro e2 he2 hne2
    rw [hdb] at he2
    rcases List.mem_map.mp he2 with ⟨y, hy, hgy⟩
    have hid2 : e2.id = y.id := by
      rw [← hgy]
      exact hgid y
    by_cases h : (y.id == id) = true
    · have hyid : y.id = id := by simpa using h
      exact absurd (hid2.trans hyid) hne2
    · rw [← hgy]
      simp only [if_neg h]
      exact hy
  · rw [hdb]
    exact List.length_map _ _
  · rw [hdb]

/-- Witness for C3: updating only `status` on the pending expense changes
exactly that field, as seen by a subsequent lookup. -/
theorem update_only_supplied_fields_witness :
    findExpense pendingDB 2 = some pendingExpense
    ∧ (statusOnly "paid").isEmpty = false
    ∧ findExpense (update_expense pendingDB 2 (statusOnly "paid")).1 2
        = some (applyUpdate (statusOnly "paid") pendingExpense) :=
  ⟨by decide, by decide,
   (update_only_supplied_fields pendingDB 2 (statusOnly "paid") pendingExpense
      (by decide) (by decide)).1⟩

/-- One defined operation keeps every stored status inside the documented
set, provided the operation itself only writes documented statuses. -/
theorem applyOp_preserves_validStatus (db : DB) (op : Op)
    (hdb : db.expenses.all (fun e => validStatus e.status) = true)
    (hop : opStatusOK op = true) :
    (applyOp db op).expenses.all (fun e => validStatus e.status) = true := by
  cases op with
  | create cn a cid se dd now =>
    show (db.expenses ++ [_]).all (fun e => validStatus e.status) = true
    rw [List.all_append, hdb]
    rfl
  | update id f =>
    rcases hfind : findExpense db id with _ | e
    · show (update_expense db id f).1.expenses.all _ = true
      simp only [update_expense, hfind]
      exact hdb
    · by_cases hf : f.isEmpty = true
      · show (update_expense db id f).1.expenses.all _ = true
        simp only [update_expense, hfind, hf, if_true]
        exact hdb
      · have hf0 : f.isEmpty = false := by
          cases hc : f.isEmpty with
          | false => rfl
          | true => exact absurd hc hf
        show (update_expense db id f).1.expenses.all _ = true
        simp only [update_expense, hfind, hf0, Bool.false_eq_true, if_false]
        rw [List.all_eq_true] at hdb ⊢
        intro x hx
        rcases List.mem_map.mp hx with ⟨y, hy, rfl⟩
        by_cases hid : (y.id == id) = true
        · simp only [if_pos hid]
          cases hs : f.status with
          | none =>
            have : (applyUpdate f y).status = y.status := by
              simp [applyUpdate, hs]
            simpa [this] using hdb y hy
          | some s =>
            have hvs : validStatus s = true := by
              simpa [opStatusOK, hs] using hop
            have : (applyUpdate f y).status = s := by
              simp [applyUpdate, hs]
            simpa [this] using hvs
        · simp only [if_neg hid]
          exact hdb y hy

/-- C9 (amended): along any run of `create_expense` / `update_expense`
calls in which every supplied status is one of `pending`, `paid`,
`cancelled`, every stored expense keeps a status in that set.  (The code
never validates the status argument, so the restriction on the calls is
necessary — see the counterexample.) -/
theorem status_invariant (db : DB) (ops : List Op)
    (hdb : db.expenses.all (fun e => validStatus e.status) = true)
    (hops : ops.all opStatusOK = true) :
    (runOps db ops).expenses.all (fun e => validStatus e.status) = true := by
  induction ops generalizing db with
  | nil => exact hdb
  | cons op ops ih =>
    rw [List.all_cons, Bool.and_eq_true] at hops
    have hstep := applyOp_preserves_validStatus db op hdb hops.1
    exact ih (applyOp db op) hstep hops.2

/-- Witness for C9: a run that creates an expense and marks it paid keeps
all statuses inside the documented set. -/
theorem status_invariant_witness :
    emptyDB.expenses.all (fun e => validStatus e.status) = true
    ∧ okOps.all opStatusOK = true
    ∧ (runOps emptyDB okOps).expenses.all (fun e => validStatus e.status) = true :=
  ⟨by decide, by decide, status_invariant emptyDB okOps (by decide) (by decide)⟩

/-- C9 fails as literally stated: `update_expense` accepts any status
string, so a reachable state stores the status `"bogus"`, outside
`pending | paid | cancelled`. -/
theorem status_invariant_counterexample :
    (runOps emptyDB bogusOps).expenses.all (fun e => validStatus e.status) = false :=
  by decide

end Spending
